import Mathlib

/-!
Verification of the two HTTP services of this repository:
service A (`src/autocrop/api.py`) and service B
(`src/minio-organizer/api.py`, `src/minio-organizer/organize.py`).

Strings are modelled through their character lists (`String.data`); every
character stands for one byte of the Python `str`.  The object store is an
external collaborator of the repository (spec section 6, "Object storage
boundary"): it is modelled as an association list from (bucket, key) to an
opaque content string, with `put`/`delete`/`copy`/`list` as the spec's
boundary states them.  Network faults of the store are made explicit as
boolean oracles, one per storage call, so that the error branches of the
source are reachable in the model.
-/

/-- Default endpoint, from `S3_ENDPOINT_URL` (organize.py line 18, api.py line 23). -/
def MINIO_ENDPOINT : String := "http://minio:9000"

/-- Default bucket, from `S3_BUCKET_NAME` (organize.py line 21, api.py line 26). -/
def MINIO_BUCKET : String := "nca-toolkit"

/-- Value of a hexadecimal digit, as `urllib.parse.unquote` accepts them. -/
def hexVal (c : Char) : Option Nat :=
  if '0' ≤ c ∧ c ≤ '9' then some (c.toNat - '0'.toNat)
  else if 'a' ≤ c ∧ c ≤ 'f' then some (c.toNat - 'a'.toNat + 10)
  else if 'A' ≤ c ∧ c ≤ 'F' then some (c.toNat - 'A'.toNat + 10)
  else none

/-- Percent-decoding on a character (byte) list, modelling
`urllib.parse.unquote`: a `%` followed by two hex digits becomes the byte
they denote; an invalid escape is kept verbatim.  (The UTF-8 recombination
of multi-byte sequences done by the source is the identity on the
byte-per-character view used here.) -/
def unquoteChars : List Char → List Char
  | c :: h1 :: h2 :: rest =>
    if c = '%' then
      match hexVal h1, hexVal h2 with
      | some a, some b => Char.ofNat (16 * a + b) :: unquoteChars rest
      | _, _ => '%' :: unquoteChars (h1 :: h2 :: rest)
    else c :: unquoteChars (h1 :: h2 :: rest)
  | c :: rest => c :: unquoteChars rest
  | [] => []

/-- Model of `urllib.parse.unquote` on strings, at byte level: faithful to
the source for ASCII inputs whose escapes decode to ASCII bytes (UTF-8
decoding with replacement is then the identity); the URL-codec theorem
restricts itself to that domain. -/
def unquote (s : String) : String := String.mk (unquoteChars s.data)

/-- Split a character list at the first occurrence of `sep`: the part
before it, and the part after it when `sep` occurs at all. -/
def splitOnceChars (sep : Char) : List Char → List Char × Option (List Char)
  | [] => ([], none)
  | c :: rest =>
    if c = sep then ([], some rest)
    else
      (c :: (splitOnceChars sep rest).1, (splitOnceChars sep rest).2)

/-- Schemes whose URLs carry `;`-parameters (`urllib.parse.uses_params`,
the members relevant to path parsing). -/
def uses_params : List String :=
  ["", "ftp", "hdl", "prospero", "http", "imap", "https", "shttp", "rtsp",
   "rtspu", "sip", "sips", "mms", "sftp", "tel"]

/-- A character allowed after the first one of a URL scheme
(`urllib.parse.scheme_chars`): letters, digits, `+`, `-`, `.`. -/
def scheme_char (c : Char) : Bool :=
  c.isAlpha || c.isDigit || c = '+' || c = '-' || c = '.'

/-- Parameter splitting of `urllib.parse._splitparams`: cut the last path
segment at its first `;` (searching from the last `/` when one exists). -/
def splitparams_chars (l : List Char) : List Char :=
  if l.contains '/' then
    if ((l.reverse.takeWhile (fun c => c ≠ '/')).reverse).contains ';' then
      (l.reverse.dropWhile (fun c => c ≠ '/')).reverse ++
        ((l.reverse.takeWhile (fun c => c ≠ '/')).reverse).takeWhile (fun c => c ≠ ';')
    else l
  else l.takeWhile (fun c => c ≠ ';')

/-- Removal of the unsafe bytes tab, CR and LF that `urlsplit` strips
from the URL before parsing. -/
def stripControl (url : String) : List Char :=
  url.data.filter (fun c => c ≠ '\t' ∧ c ≠ '\r' ∧ c ≠ '\n')

/-- Scheme recognition of `urlsplit`: split at the first `:` only when
the prefix is a nonempty valid scheme (returned lowercased); otherwise no
scheme is recognised and the input is left whole. -/
def urlsplit_scheme_rest (u0 : List Char) : List Char × List Char :=
  match splitOnceChars ':' u0 with
  | (_, none) => ([], u0)
  | (pre, some post) =>
    match pre with
    | [] => ([], u0)
    | c0 :: cs =>
      if c0.isAlpha && cs.all scheme_char then ((c0 :: cs).map Char.toLower, post)
      else ([], u0)

/-- Netloc consumption of `urlsplit`: when the remainder starts with `//`,
the netloc runs up to the first `/`, `?` or `#`. -/
def urlsplit_after_netloc (l : List Char) : List Char :=
  if l.take 2 = ['/', '/'] then
    (l.drop 2).dropWhile (fun c => c ≠ '/' ∧ c ≠ '?' ∧ c ≠ '#')
  else l

/-- Path-with-no-query of `urlsplit`: after scheme and netloc, drop the
fragment (first `#`), then the query (first `?`). -/
def urlsplit_pathq (url : String) : List Char :=
  ((urlsplit_after_netloc (urlsplit_scheme_rest (stripControl url)).2).takeWhile
    (fun c => c ≠ '#')).takeWhile (fun c => c ≠ '?')

/-- The `.path` component produced by `urllib.parse.urlparse`: the
`urlsplit` path, with the `;`-parameters of the last segment cut off when
the recognised scheme is one of `uses_params`. -/
def urlparse_path (url : String) : String :=
  if uses_params.contains (String.mk (urlsplit_scheme_rest (stripControl url)).1) ∧
      (urlsplit_pathq url).contains ';' then
    String.mk (splitparams_chars (urlsplit_pathq url))
  else String.mk (urlsplit_pathq url)

/-- Python `s.lstrip('/')`: remove every leading `/`. -/
def lstripSlash (s : String) : String := String.mk (s.data.dropWhile (· = '/'))

/-- Python `s.split(sep, 1)`: split at the first occurrence of `sep` into
at most two parts. -/
def split_once (s : String) (sep : Char) : List String :=
  match splitOnceChars sep s.data with
  | (pre, none) => [String.mk pre]
  | (pre, some post) => [String.mk pre, String.mk post]

/-- Function `parse_minio_url` of the organizer service (organize.py lines 33-43):
path, leading slashes stripped, split at the first `/`; with two parts the
first is the bucket and the second the percent-decoded key, with one part
the default bucket is used and that part is the percent-decoded key. -/
def parse_minio_url_org (url : String) : String × String :=
  match split_once (lstripSlash (urlparse_path url)) '/' with
  | [b, k] => (b, unquote k)
  | l => (MINIO_BUCKET, unquote (l.headD ""))

/-- Function `parse_minio_url` of the autocrop service (api.py lines 38-47): same
split, but the key is returned verbatim — this version performs no
percent-decoding. -/
def parse_minio_url_ac (url : String) : String × String :=
  match split_once (lstripSlash (urlparse_path url)) '/' with
  | [b, k] => (b, k)
  | l => (MINIO_BUCKET, l.headD "")

/-- Model of `os.path.basename`: the part of the key after the last `/`. -/
def basename (s : String) : String :=
  String.mk ((s.data.reverse.takeWhile (· ≠ '/')).reverse)

/-- Boolean prefix test on strings (Python `str.startswith`). -/
def hasPrefixB (p s : String) : Bool := p.data.isPrefixOf s.data

/-- Model of `os.path.splitext(p)[0]` (posixpath `_splitext`): cut at the last dot
of the last path component, unless every character of that component
before the dot is itself a dot. -/
def splitext_root (p : String) : String :=
  let l := p.data
  let sepIndex : Int := match l.reverse.findIdx? (· = '/') with
    | none => -1
    | some i => (l.length : Int) - 1 - i
  let dotIndex : Int := match l.reverse.findIdx? (· = '.') with
    | none => -1
    | some i => (l.length : Int) - 1 - i
  if sepIndex < dotIndex then
    if ((l.take dotIndex.toNat).drop (sepIndex + 1).toNat).any (· ≠ '.') then
      String.mk (l.take dotIndex.toNat)
    else p
  else p

/-! ## Object store model (spec section 6, "Object storage boundary") -/

/-- The object store: an association list from (bucket, key) to the stored
blob, one entry per live key. -/
abbrev Store := List ((String × String) × String)

/-- A storage call made by the organizer (used to state that validation
failures happen before any storage operation). -/
inductive StorageOp
  | copy (bucket source_key dest_key : String)
  | delete (bucket key : String)
  deriving DecidableEq, Repr

/-- Storage `get`: content stored at (bucket, key), if any. -/
def lookupObj : Store → String → String → Option String
  | [], _, _ => none
  | e :: rest, b, k => if e.1.1 = b ∧ e.1.2 = k then some e.2 else lookupObj rest b k

/-- Storage `delete_object`: remove the entry at (bucket, key). -/
def delObj : Store → String → String → Store
  | [], _, _ => []
  | e :: rest, b, k => if e.1.1 = b ∧ e.1.2 = k then delObj rest b k else e :: delObj rest b k

/-- Storage `put_object` and the `copy_object` target effect: overwrite (bucket, key). -/
def putObj (st : Store) (bucket key v : String) : Store :=
  ((bucket, key), v) :: delObj st bucket key

/-- Storage `list_objects_v2`: the keys currently present in a bucket. -/
def bucketKeys : Store → String → List String
  | [], _ => []
  | e :: rest, b => if e.1.1 = b then e.1.2 :: bucketKeys rest b else bucketKeys rest b

/-! ## Relocation engine (src/minio-organizer/organize.py) -/

/-- Function `move_file` (organize.py lines 45-66): copy to `dest_key`, then delete
`source_key`; any exception of either storage call is caught and the
function returns `False`.  `copyFault`/`deleteFault` model a fault of the
respective network call; a copy of a missing source also raises.  The
third component records the storage calls that were issued. -/
def move_file (copyFault deleteFault : Bool) (st : Store)
    (source_key dest_key bucket : String) : Store × Bool × List StorageOp :=
  match lookupObj st bucket source_key with
  | none => (st, false, [StorageOp.copy bucket source_key dest_key])
  | some v =>
    if copyFault then (st, false, [StorageOp.copy bucket source_key dest_key])
    else
      let st1 := putObj st bucket dest_key v
      if deleteFault then
        (st1, false, [StorageOp.copy bucket source_key dest_key, StorageOp.delete bucket source_key])
      else
        (delObj st1 bucket source_key, true,
          [StorageOp.copy bucket source_key dest_key, StorageOp.delete bucket source_key])

/-- Shift a per-index oracle by one position. -/
def shiftO (f : Nat → Bool) : Nat → Bool := fun n => f (n + 1)

/-- Loop body of `organize_files` (organize.py lines 131-157).  Per input
URL `i`: `exc i` models "some exception is raised while processing this
URL" (caught at lines 155-157, original URL kept); otherwise the URL is
parsed, kept unchanged when the key already lies in the folder, and moved
with fault oracles `cf i`/`df i` otherwise — the new URL on success, the
original on failure.  Each output entry carries the boolean result of its
`move_file` call (`false` on the skip and exception paths, where no move
happens).  The final component collects all storage calls issued. -/
def organize_files_go (exc cf df : Nat → Bool) (execution_folder : String) (st : Store) :
    List String → Store × List (String × Bool) × List StorageOp
  | [] => (st, [], [])
  | url :: rest =>
    if exc 0 then
      let r := organize_files_go (shiftO exc) (shiftO cf) (shiftO df) execution_folder st rest
      (r.1, (url, false) :: r.2.1, r.2.2)
    else if hasPrefixB (execution_folder ++ "/") (parse_minio_url_org url).2 then
      let r := organize_files_go (shiftO exc) (shiftO cf) (shiftO df) execution_folder st rest
      (r.1, (url, false) :: r.2.1, r.2.2)
    else
      let dest_key := execution_folder ++ "/" ++ basename (parse_minio_url_org url).2
      let m := move_file (cf 0) (df 0) st (parse_minio_url_org url).2 dest_key
        (parse_minio_url_org url).1
      let r := organize_files_go (shiftO exc) (shiftO cf) (shiftO df) execution_folder m.1 rest
      if m.2.1 then
        (r.1, (MINIO_ENDPOINT ++ "/" ++ (parse_minio_url_org url).1 ++ "/" ++ dest_key, true) :: r.2.1,
          m.2.2 ++ r.2.2)
      else
        (r.1, (url, false) :: r.2.1, m.2.2 ++ r.2.2)

/-- Function `organize_files` (organize.py lines 118-159): the list of URLs it
returns. -/
def organize_files (exc cf df : Nat → Bool) (execution_folder : String) (st : Store)
    (file_urls : List String) : List String :=
  ((organize_files_go exc cf df execution_folder st file_urls).2.1).map Prod.fst

/-- Eligibility test of the root-organization loop (organize.py lines
93-99): a listed key is moved iff it contains no `/` and is neither the
execution folder name nor that name followed by `/`. -/
def rootEligible (execution_folder k : String) : Bool :=
  !(k.data.contains '/') && !(k == execution_folder) && !(k == execution_folder ++ "/")

/-- Loop of `organize_all_root_files` (organize.py lines 90-111) over the
listed keys: ineligible keys are skipped, eligible ones are moved into the
folder; only a successful move contributes its new URL.  Fault oracles are
consumed one index per attempted move. -/
def organize_all_go (cf df : Nat → Bool) (execution_folder bucket : String) (st : Store) :
    List String → Store × List String
  | [] => (st, [])
  | k :: rest =>
    if k.data.contains '/' then
      organize_all_go cf df execution_folder bucket st rest
    else if k == execution_folder || k == execution_folder ++ "/" then
      organize_all_go cf df execution_folder bucket st rest
    else
      let dest_key := execution_folder ++ "/" ++ basename k
      let m := move_file (cf 0) (df 0) st k dest_key bucket
      let r := organize_all_go (shiftO cf) (shiftO df) execution_folder bucket m.1 rest
      if m.2.1 then (r.1, (MINIO_ENDPOINT ++ "/" ++ bucket ++ "/" ++ dest_key) :: r.2)
      else r

/-- Function `organize_all_root_files` (organize.py lines 68-116): list the bucket
(`listFault` models an exception of the listing call, caught at lines
113-114 with the URLs accumulated so far — necessarily none — returned),
then move every eligible root key.  An absent `Contents` entry is the
empty listing. -/
def organize_all_root_files (listFault : Bool) (cf df : Nat → Bool)
    (execution_folder bucket : String) (st : Store) : Store × List String :=
  if listFault then (st, [])
  else organize_all_go cf df execution_folder bucket st (bucketKeys st bucket)

/-- Statement helper (not part of the source): the sublist of keys whose
move is attempted and succeeds, given the per-attempt fault oracles. -/
def succMoved (cf df : Nat → Bool) (execution_folder : String) : List String → List String
  | [] => []
  | k :: rest =>
    if rootEligible execution_folder k then
      if cf 0 = false ∧ df 0 = false then
        k :: succMoved (shiftO cf) (shiftO df) execution_folder rest
      else succMoved (shiftO cf) (shiftO df) execution_folder rest
    else succMoved cf df execution_folder rest

/-! ## Conversion orchestrator (src/autocrop/api.py) -/

/-- Outcome of the `subprocess.run` call with its 600 second timeout
(api.py lines 124-129): either `TimeoutExpired` is raised, or the child
completes with an exit status and captured streams. -/
inductive RunResult
  | timeout
  | completed (returncode : Int) (child_stdout child_stderr : String)
  deriving DecidableEq, Repr

/-- JSON body of `POST /convert`; a field is `none` when absent. -/
structure ConvertBody where
  input_url : Option String
  output_key : Option String
  deriving DecidableEq, Repr

/-- Environment of one `/convert` request: the request body plus oracles
for every external effect of the handler. -/
structure ConvertEnv where
  body : Option ConvertBody
  /-- an unexpected exception strikes after the temp files are created
  (caught by the handler's generic `except` at api.py lines 179-184) -/
  unexpected : Bool
  unexpectedMsg : String
  /-- the `download_file` call succeeds (api.py lines 97-105) -/
  downloadOk : Bool
  downloadErrMsg : String
  run : RunResult
  /-- value of `os.path.exists(temp_output.name)` after the child exits (line 140) -/
  outputExists : Bool
  /-- the `upload_file` call succeeds (api.py lines 152-163) -/
  uploadOk : Bool
  uploadErrMsg : String
  tempOutName : String
  /-- value of `os.path.exists(temp_input.name)` when the `finally` block
  runs (api.py line 188) -/
  tempInputPresent : Bool
  /-- value of `os.path.exists(temp_output.name)` when the `finally` block
  runs (api.py line 193) -/
  tempOutputPresent : Bool
  /-- the `os.unlink` of the input temp file raises (swallowed by the bare
  `except` at api.py lines 191-192, leaving the file behind) -/
  unlinkInputFault : Bool
  /-- the `os.unlink` of the output temp file raises (swallowed at api.py
  lines 196-197) -/
  unlinkOutputFault : Bool
  deriving DecidableEq, Repr

/-- JSON response of the handler; absent fields are `none`. -/
structure HttpResponse where
  status : Nat
  success : Bool
  error : Option String := none
  details : Option String := none
  stdout : Option String := none
  stderr : Option String := none
  output_url : Option String := none
  output_key : Option String := none
  message : Option String := none
  log : Option String := none
  deriving DecidableEq, Repr

/-- Result of one `/convert` request: the HTTP response, and whether each
temporary file still exists once the handler (including its `finally`
block) has finished. -/
structure ConvertResult where
  resp : HttpResponse
  temp_input_exists : Bool
  temp_output_exists : Bool
  deriving DecidableEq, Repr

/-- Whether the request reaches the temporary-file creation at api.py
lines 91-94: exactly when the body and its `input_url` are present (the
400 validation returns happen before creation). -/
def temps_created (env : ConvertEnv) : Bool :=
  match env.body with
  | none => false
  | some data =>
    match data.input_url with
    | none => false
    | some _ => true

/-- One branch of the `finally` block (api.py lines 186-197): when the
temp file was created and still exists, `os.unlink` is attempted inside
`try ... except: pass`, so a failing unlink leaves the file behind;
otherwise there is nothing to remove and no file remains.  Returns
whether the file still exists after the handler. -/
def finallyCleanup (created present unlinkFault : Bool) : Bool :=
  if created && present then unlinkFault
  else false

/-- Effective output key (api.py lines 107-113): the request's
`output_key` when present and truthy (non-empty), else the input key with
its extension replaced by the `_vertical.mp4` suffix. -/
def effective_output_key (req_output_key : Option String) (input_key : String) : String :=
  match req_output_key with
  | some s => if s = "" then splitext_root input_key ++ "_vertical.mp4" else s
  | none => splitext_root input_key ++ "_vertical.mp4"

/-- Handler `convert_video` (api.py lines 54-197).  Branches in source order:
missing body or `input_url` → 400; (temp files created); download failure
→ 404; timeout → 408; nonzero exit → 500 with `details`; missing output
file → 500 with both captured streams; upload failure → 500; success →
200 with the new URL, key and log.  An unexpected exception anywhere in
between is caught by the generic handler → 500.  The `finally` block
(lines 186-197) runs on every path and attempts to unlink each temporary
file that was created and still exists, swallowing unlink errors. -/
def convert_video (env : ConvertEnv) : ConvertResult :=
  let resp : HttpResponse :=
    match env.body with
    | none => { status := 400, success := false, error := some "Missing required field: input_url" }
    | some data =>
      match data.input_url with
      | none => { status := 400, success := false, error := some "Missing required field: input_url" }
      | some input_url =>
        if env.unexpected then { status := 500, success := false, error := some env.unexpectedMsg }
        else if !env.downloadOk then
          { status := 404, success := false,
            error := some ("Failed to download input file from MinIO: " ++ env.downloadErrMsg) }
        else
          let bk := parse_minio_url_ac input_url
          let okey := effective_output_key data.output_key bk.2
          match env.run with
          | RunResult.timeout =>
            { status := 408, success := false,
              error := some "Video conversion timed out (max 10 minutes)" }
          | RunResult.completed rc sout serr =>
            if rc ≠ 0 then
              { status := 500, success := false, error := some "Video conversion failed",
                details := some serr }
            else if !env.outputExists then
              { status := 500, success := false,
                error := some ("Output file was not created: " ++ env.tempOutName),
                stdout := some sout, stderr := some serr }
            else if !env.uploadOk then
              { status := 500, success := false,
                error := some ("Failed to upload output file to MinIO: " ++ env.uploadErrMsg) }
            else
              { status := 200, success := true,
                output_url := some (MINIO_ENDPOINT ++ "/" ++ bk.1 ++ "/" ++ okey),
                output_key := some okey,
                message := some "Video converted successfully", log := some sout }
  { resp := resp,
    temp_input_exists :=
      finallyCleanup (temps_created env) env.tempInputPresent env.unlinkInputFault,
    temp_output_exists :=
      finallyCleanup (temps_created env) env.tempOutputPresent env.unlinkOutputFault }

/-! ## Organizer HTTP façade (src/minio-organizer/api.py) -/

/-- A JSON value in the `file_urls` position: an array of strings, or any
non-array value (abstracted by a printed form). -/
inductive JVal
  | jarr (l : List String)
  | jother (printed : String)
  deriving DecidableEq, Repr

/-- JSON body of `POST /organize`; a field is `none` when absent. -/
structure OrganizeBody where
  execution_folder : Option String
  file_urls : Option JVal
  deriving DecidableEq, Repr

/-- The organize endpoint handler (api.py lines 24-84): missing body or missing
field → 400; `file_urls` not an array → 400; otherwise `organize_files`
runs and a 200 response carries its result.  Returns (status, success,
organized urls, final store, storage calls issued). -/
def organize_endpoint (exc cf df : Nat → Bool) (body : Option OrganizeBody) (st : Store) :
    Nat × Bool × List String × Store × List StorageOp :=
  match body with
  | none => (400, false, [], st, [])
  | some data =>
    match data.execution_folder, data.file_urls with
    | none, _ => (400, false, [], st, [])
    | some _, none => (400, false, [], st, [])
    | some ef, some fv =>
      match fv with
      | JVal.jother _ => (400, false, [], st, [])
      | JVal.jarr file_urls =>
        let r := organize_files_go exc cf df ef st file_urls
        (200, true, r.2.1.map Prod.fst, r.1, r.2.2)

/-! ## List helper lemmas for the URL codec -/

theorem contains_iff_mem_char (l : List Char) (c : Char) : l.contains c = true ↔ c ∈ l :=
  List.contains_iff_exists_mem_beq.trans (by simp)

theorem takeWhile_eq_self_of_all (p : Char → Bool) :
    ∀ (l : List Char), (∀ x ∈ l, p x = true) → List.takeWhile p l = l
  | [], _ => rfl
  | a :: l, h => by
    have ha : p a = true := h a (List.mem_cons_self a l)
    have ih := takeWhile_eq_self_of_all p l (fun x hx => h x (List.mem_cons_of_mem a hx))
    simp [List.takeWhile, ha, ih]

theorem lookupObj_delObj (st : Store) (b k b' k' : String) (h : ¬(b' = b ∧ k' = k)) :
    lookupObj (delObj st b k) b' k' = lookupObj st b' k' := by
  induction st with
  | nil => rfl
  | cons e rest ih =>
    by_cases hd : e.1.1 = b ∧ e.1.2 = k
    · have hl : ¬(e.1.1 = b' ∧ e.1.2 = k') := by
        rintro ⟨h1, h2⟩
        exact h ⟨h1.symm.trans hd.1, h2.symm.trans hd.2⟩
      have h2 : ¬(b = b' ∧ k = k') := fun hc => h ⟨hc.1.symm, hc.2.symm⟩
      simp [delObj, hd, lookupObj, hl, ih, h2]
    · by_cases hl : e.1.1 = b' ∧ e.1.2 = k' <;> simp [delObj, hd, lookupObj, hl, ih, h]

theorem lookupObj_delObj_self (st : Store) (b k : String) :
    lookupObj (delObj st b k) b k = none := by
  induction st with
  | nil => rfl
  | cons e rest ih =>
    by_cases hd : e.1.1 = b ∧ e.1.2 = k <;> simp [delObj, hd, lookupObj, ih]

theorem lookupObj_putObj_self (st : Store) (b k v : String) :
    lookupObj (putObj st b k v) b k = some v := by
  simp [lookupObj, putObj]

theorem lookupObj_putObj_ne (st : Store) (b k v b' k' : String) (h : ¬(b' = b ∧ k' = k)) :
    lookupObj (putObj st b k v) b' k' = lookupObj st b' k' := by
  have hl : ¬(b = b' ∧ k = k') := by
    rintro ⟨h1, h2⟩; exact h ⟨h1.symm, h2.symm⟩
  calc lookupObj (putObj st b k v) b' k'
      = lookupObj (delObj st b k) b' k' := by simp [lookupObj, putObj, hl]
    _ = lookupObj st b' k' := lookupObj_delObj st b k b' k' h

theorem mem_bucketKeys_iff (st : Store) (b k : String) :
    k ∈ bucketKeys st b ↔ (lookupObj st b k).isSome := by
  induction st with
  | nil => simp [bucketKeys, lookupObj]
  | cons e rest ih =>
    by_cases hm : e.1.1 = b ∧ e.1.2 = k
    · simp [bucketKeys, hm.1, lookupObj, hm]
    · by_cases hbb : e.1.1 = b
      · have hkk : ¬ e.1.2 = k := fun hkk => hm ⟨hbb, hkk⟩
        simp [bucketKeys, hbb, lookupObj, hm, ih, hkk, Ne.symm hkk]
      · simp [bucketKeys, hbb, lookupObj, hm, ih]

/-! ## Claim theorems (first batch) -/

/-- C3: `move_file` performs a copy of the object to the destination key
followed by deletion of the source key; any failure of either step is
caught and the call returns `false`; if the copy succeeds and the delete
fails, the copy is not rolled back and the object is present at both the
source and the destination keys afterwards. -/
theorem move_file_copy_delete_spec (cf df : Bool) (st : Store) (src dest bucket : String) :
    ((cf = true ∨ df = true ∨ lookupObj st bucket src = none) →
      (move_file cf df st src dest bucket).2.1 = false) ∧
    (∀ v, lookupObj st bucket src = some v → cf = false →
      (move_file cf df st src dest bucket).2.2 =
        [StorageOp.copy bucket src dest, StorageOp.delete bucket src] ∧
      (df = true →
        (move_file cf df st src dest bucket).2.1 = false ∧
        (lookupObj (move_file cf df st src dest bucket).1 bucket src).isSome = true ∧
        (lookupObj (move_file cf df st src dest bucket).1 bucket dest).isSome = true)) := by
  constructor
  · intro h
    rcases hl : lookupObj st bucket src with _ | v
    · simp [move_file, hl]
    · rcases h with h | h | h
      · simp [move_file, hl, h]
      · cases cf <;> simp [move_file, hl, h]
      · rw [h] at hl; cases hl
  · intro v hv hcf
    subst hcf
    refine ⟨by cases df <;> simp [move_file, hv], ?_⟩
    intro hdf
    subst hdf
    refine ⟨by simp [move_file, hv], ?_, ?_⟩
    · by_cases hsd : src = dest
      · subst hsd
        simp [move_file, hv, lookupObj_putObj_self]
      · have : lookupObj (putObj st bucket dest v) bucket src = lookupObj st bucket src :=
          lookupObj_putObj_ne st bucket dest v bucket src (fun hc => hsd hc.2)
        simp [move_file, hv, this]
    · simp [move_file, hv, lookupObj_putObj_self]

/-- C3 witness at a concrete store: copy succeeds, delete fails. -/
theorem move_file_copy_delete_spec_witness :
    lookupObj [(("b", "s"), "v")] "b" "s" = some "v" ∧
    (move_file false true [(("b", "s"), "v")] "s" "d" "b").2.2 =
      [StorageOp.copy "b" "s" "d", StorageOp.delete "b" "s"] ∧
    (move_file false true [(("b", "s"), "v")] "s" "d" "b").2.1 = false ∧
    (lookupObj (move_file false true [(("b", "s"), "v")] "s" "d" "b").1 "b" "s").isSome = true ∧
    (lookupObj (move_file false true [(("b", "s"), "v")] "s" "d" "b").1 "b" "d").isSome = true := by
  have h := (move_file_copy_delete_spec false true [(("b", "s"), "v")] "s" "d" "b").2 "v"
    (by decide) rfl
  exact ⟨by decide, h.1, (h.2 rfl).1, (h.2 rfl).2.1, (h.2 rfl).2.2⟩

/-- The two 500-class error strings of the conversion handler differ. -/
theorem output_missing_error_ne (x : String) :
    "Output file was not created: " ++ x ≠ "Video conversion failed" := by
  intro h
  have hl : ("Output file was not created: " ++ x).length =
      ("Video conversion failed" : String).length := by rw [h]
  rw [String.length_append] at hl
  have h1 : ("Output file was not created: " : String).length = 29 := by decide
  have h2 : ("Video conversion failed" : String).length = 23 := by decide
  omega

/-- C6: the effective output key is the request's `output_key` exactly
when provided and non-empty; otherwise the input key's stem followed by
`_vertical.mp4`; in particular `input_url = "http://minio:9000/b/clip.mp4"`
with no `output_key` yields `output_key = "clip_vertical.mp4"`. -/
theorem effective_output_key_correct :
    (∀ s input_key : String, s ≠ "" → effective_output_key (some s) input_key = s) ∧
    (∀ input_key : String,
      effective_output_key none input_key = splitext_root input_key ++ "_vertical.mp4") ∧
    (∀ input_key : String,
      effective_output_key (some "") input_key = splitext_root input_key ++ "_vertical.mp4") ∧
    (∀ env : ConvertEnv, ∀ data : ConvertBody, ∀ sout serr : String,
      env.body = some data → data.input_url = some "http://minio:9000/b/clip.mp4" →
      data.output_key = none → env.unexpected = false → env.downloadOk = true →
      env.run = RunResult.completed 0 sout serr → env.outputExists = true → env.uploadOk = true →
      (convert_video env).resp.output_key = some "clip_vertical.mp4") := by
  refine ⟨?_, ?_, ?_, ?_⟩
  · intro s ik hs; simp [effective_output_key, hs]
  · intro ik; simp [effective_output_key]
  · intro ik; simp [effective_output_key]
  · intro env data sout serr hb hiu hok hu hd hr ho hup
    simp only [convert_video, hb, hiu, hu, hd, hr, ho, hup]
    norm_num
    simp only [hok]
    decide

/-- C6 witness at concrete inputs. -/
theorem effective_output_key_correct_witness :
    ("k.mp4" : String) ≠ "" ∧ effective_output_key (some "k.mp4") "clip.mp4" = "k.mp4" ∧
    (convert_video
      { body := some { input_url := some "http://minio:9000/b/clip.mp4", output_key := none },
        unexpected := false, unexpectedMsg := "", downloadOk := true, downloadErrMsg := "",
        run := RunResult.completed 0 "log" "", outputExists := true, uploadOk := true,
        uploadErrMsg := "", tempOutName := "/tmp/o.mp4",
        tempInputPresent := true, tempOutputPresent := true,
        unlinkInputFault := false, unlinkOutputFault := false }).resp.output_key =
      some "clip_vertical.mp4" := by
  refine ⟨by decide, effective_output_key_correct.1 "k.mp4" "clip.mp4" (by decide), ?_⟩
  exact effective_output_key_correct.2.2.2 _ _ "log" "" rfl rfl rfl rfl rfl rfl rfl rfl

/-- C7: when the executable exits with status 0 but the expected output
file is absent, the response is a 500 failure distinct from the
nonzero-exit failure, surfacing both captured streams, and is never a
success. -/
theorem convert_missing_output_file (env : ConvertEnv) (data : ConvertBody)
    (iu sout serr : String) (hb : env.body = some data) (hiu : data.input_url = some iu)
    (hu : env.unexpected = false) (hd : env.downloadOk = true)
    (hr : env.run = RunResult.completed 0 sout serr) (ho : env.outputExists = false) :
    (convert_video env).resp.success = false ∧
    (convert_video env).resp.status = 500 ∧
    (convert_video env).resp.stdout = some sout ∧
    (convert_video env).resp.stderr = some serr ∧
    (convert_video env).resp.error = some ("Output file was not created: " ++ env.tempOutName) ∧
    (convert_video env).resp.error ≠ some "Video conversion failed" := by
  have hresp : (convert_video env).resp =
      { status := 500, success := false,
        error := some ("Output file was not created: " ++ env.tempOutName),
        stdout := some sout, stderr := some serr } := by
    simp [convert_video, hb, hiu, hu, hd, hr, ho]
  refine ⟨by rw [hresp], by rw [hresp], by rw [hresp], by rw [hresp], by rw [hresp], ?_⟩
  rw [hresp]
  intro hc
  exact output_missing_error_ne env.tempOutName (Option.some.inj hc)

/-- C7 witness at a concrete environment. -/
theorem convert_missing_output_file_witness :
    (convert_video
      { body := some { input_url := some "http://minio:9000/b/clip.mp4", output_key := none },
        unexpected := false, unexpectedMsg := "", downloadOk := true, downloadErrMsg := "",
        run := RunResult.completed 0 "out" "err", outputExists := false, uploadOk := true,
        uploadErrMsg := "", tempOutName := "/tmp/o.mp4",
        tempInputPresent := true, tempOutputPresent := true,
        unlinkInputFault := false, unlinkOutputFault := false }).resp.success = false ∧
    (convert_video
      { body := some { input_url := some "http://minio:9000/b/clip.mp4", output_key := none },
        unexpected := false, unexpectedMsg := "", downloadOk := true, downloadErrMsg := "",
        run := RunResult.completed 0 "out" "err", outputExists := false, uploadOk := true,
        uploadErrMsg := "", tempOutName := "/tmp/o.mp4",
        tempInputPresent := true, tempOutputPresent := true,
        unlinkInputFault := false, unlinkOutputFault := false }).resp.status = 500 := by
  have h := convert_missing_output_file
    { body := some { input_url := some "http://minio:9000/b/clip.mp4", output_key := none },
      unexpected := false, unexpectedMsg := "", downloadOk := true, downloadErrMsg := "",
      run := RunResult.completed 0 "out" "err", outputExists := false, uploadOk := true,
      uploadErrMsg := "", tempOutName := "/tmp/o.mp4",
        tempInputPresent := true, tempOutputPresent := true,
        unlinkInputFault := false, unlinkOutputFault := false }
    { input_url := some "http://minio:9000/b/clip.mp4", output_key := none }
    "http://minio:9000/b/clip.mp4" "out" "err" rfl rfl rfl rfl rfl rfl
  exact ⟨h.1, h.2.1⟩

theorem finallyCleanup_eq (c p f : Bool) : finallyCleanup c p f = (c && p && f) := by
  cases c <;> cases p <;> cases f <;> rfl

/-- C8 counterexample: on the timeout path, when the input temp file is
still present and its `os.unlink` fails, the swallowed exception leaves
the file behind — so "both temporary files are deleted on every exit
path" fails as stated. -/
theorem convert_cleanup_counterexample :
    (convert_video
      { body := some { input_url := some "http://minio:9000/b/clip.mp4", output_key := none },
        unexpected := false, unexpectedMsg := "", downloadOk := true, downloadErrMsg := "",
        run := RunResult.timeout, outputExists := false, uploadOk := true,
        uploadErrMsg := "", tempOutName := "/tmp/o.mp4",
        tempInputPresent := true, tempOutputPresent := true,
        unlinkInputFault := true, unlinkOutputFault := false }).resp.status = 408 ∧
    (convert_video
      { body := some { input_url := some "http://minio:9000/b/clip.mp4", output_key := none },
        unexpected := false, unexpectedMsg := "", downloadOk := true, downloadErrMsg := "",
        run := RunResult.timeout, outputExists := false, uploadOk := true,
        uploadErrMsg := "", tempOutName := "/tmp/o.mp4",
        tempInputPresent := true, tempOutputPresent := true,
        unlinkInputFault := true, unlinkOutputFault := false }).temp_input_exists = true := by
  exact ⟨rfl, rfl⟩

/-- C8 (amended): a conversion exceeding the 600-second bound yields a
timeout failure with HTTP 408; on this and every other exit path the
`finally` block attempts deletion of each temporary file that was created
and still exists, swallowing unlink errors, so a file remains exactly
when it was created, was still present, and its unlink failed — in
particular, whenever the unlink calls do not fail, neither file remains. -/
theorem convert_timeout_cleanup :
    (∀ env : ConvertEnv, ∀ data : ConvertBody, ∀ iu : String,
      env.body = some data → data.input_url = some iu → env.unexpected = false →
      env.downloadOk = true → env.run = RunResult.timeout →
      (convert_video env).resp.status = 408 ∧ (convert_video env).resp.success = false ∧
      (convert_video env).resp.error = some "Video conversion timed out (max 10 minutes)") ∧
    (∀ env : ConvertEnv,
      (convert_video env).temp_input_exists =
        (temps_created env && env.tempInputPresent && env.unlinkInputFault) ∧
      (convert_video env).temp_output_exists =
        (temps_created env && env.tempOutputPresent && env.unlinkOutputFault)) ∧
    (∀ env : ConvertEnv, env.unlinkInputFault = false → env.unlinkOutputFault = false →
      (convert_video env).temp_input_exists = false ∧
      (convert_video env).temp_output_exists = false) := by
  refine ⟨?_, ?_, ?_⟩
  · intro env data iu hb hiu hu hd hr
    refine ⟨?_, ?_, ?_⟩ <;> simp [convert_video, hb, hiu, hu, hd, hr]
  · intro env
    exact ⟨finallyCleanup_eq _ _ _, finallyCleanup_eq _ _ _⟩
  · intro env hi ho
    constructor
    · show finallyCleanup (temps_created env) env.tempInputPresent env.unlinkInputFault = false
      rw [finallyCleanup_eq, hi, Bool.and_false]
    · show finallyCleanup (temps_created env) env.tempOutputPresent env.unlinkOutputFault = false
      rw [finallyCleanup_eq, ho, Bool.and_false]

/-- C8 (amended) witness at a concrete environment: timeout path, both
unlink calls succeeding. -/
theorem convert_timeout_cleanup_witness :
    (convert_video
      { body := some { input_url := some "http://minio:9000/b/clip.mp4", output_key := none },
        unexpected := false, unexpectedMsg := "", downloadOk := true, downloadErrMsg := "",
        run := RunResult.timeout, outputExists := false, uploadOk := true,
        uploadErrMsg := "", tempOutName := "/tmp/o.mp4",
        tempInputPresent := true, tempOutputPresent := true,
        unlinkInputFault := false, unlinkOutputFault := false }).resp.status = 408 ∧
    (convert_video
      { body := some { input_url := some "http://minio:9000/b/clip.mp4", output_key := none },
        unexpected := false, unexpectedMsg := "", downloadOk := true, downloadErrMsg := "",
        run := RunResult.timeout, outputExists := false, uploadOk := true,
        uploadErrMsg := "", tempOutName := "/tmp/o.mp4",
        tempInputPresent := true, tempOutputPresent := true,
        unlinkInputFault := false, unlinkOutputFault := false }).temp_input_exists = false ∧
    (convert_video
      { body := some { input_url := some "http://minio:9000/b/clip.mp4", output_key := none },
        unexpected := false, unexpectedMsg := "", downloadOk := true, downloadErrMsg := "",
        run := RunResult.timeout, outputExists := false, uploadOk := true,
        uploadErrMsg := "", tempOutName := "/tmp/o.mp4",
        tempInputPresent := true, tempOutputPresent := true,
        unlinkInputFault := false, unlinkOutputFault := false }).temp_output_exists = false := by
  have h := convert_timeout_cleanup.1
    { body := some { input_url := some "http://minio:9000/b/clip.mp4", output_key := none },
      unexpected := false, unexpectedMsg := "", downloadOk := true, downloadErrMsg := "",
      run := RunResult.timeout, outputExists := false, uploadOk := true,
      uploadErrMsg := "", tempOutName := "/tmp/o.mp4",
      tempInputPresent := true, tempOutputPresent := true,
      unlinkInputFault := false, unlinkOutputFault := false }
    { input_url := some "http://minio:9000/b/clip.mp4", output_key := none }
    "http://minio:9000/b/clip.mp4" rfl rfl rfl rfl rfl
  have h2 := convert_timeout_cleanup.2.2
    { body := some { input_url := some "http://minio:9000/b/clip.mp4", output_key := none },
      unexpected := false, unexpectedMsg := "", downloadOk := true, downloadErrMsg := "",
      run := RunResult.timeout, outputExists := false, uploadOk := true,
      uploadErrMsg := "", tempOutName := "/tmp/o.mp4",
      tempInputPresent := true, tempOutputPresent := true,
      unlinkInputFault := false, unlinkOutputFault := false } rfl rfl
  exact ⟨h.1, h2.1, h2.2⟩

/-- C9: a `POST /organize` body that is missing, lacks `execution_folder`
or `file_urls`, or whose `file_urls` is not an array, yields HTTP 400 with
`success: false`, the store untouched and no storage call issued. -/
theorem organize_endpoint_validation (exc cf df : Nat → Bool) (body : Option OrganizeBody)
    (st : Store)
    (h : body = none ∨ ∃ data, body = some data ∧
      (data.execution_folder = none ∨ data.file_urls = none ∨
        ∃ s, data.file_urls = some (JVal.jother s))) :
    organize_endpoint exc cf df body st = (400, false, [], st, []) := by
  rcases h with h | ⟨data, hb, hcase⟩
  · subst h; rfl
  · subst hb
    rcases data with ⟨ef, fu⟩
    rcases hcase with hef | hfu | ⟨s, hfu⟩
    · simp only at hef
      subst hef
      rfl
    · simp only at hfu
      subst hfu
      cases ef <;> rfl
    · simp only at hfu
      subst hfu
      cases ef <;> rfl

/-- C9 witness: `file_urls` bound to a non-array value. -/
theorem organize_endpoint_validation_witness :
    organize_endpoint (fun _ => false) (fun _ => false) (fun _ => false)
      (some { execution_folder := some "run", file_urls := some (JVal.jother "42") })
      [(("b", "x.mp4"), "v")] =
      (400, false, [], [(("b", "x.mp4"), "v")], []) :=
  organize_endpoint_validation (fun _ => false) (fun _ => false) (fun _ => false)
    (some { execution_folder := some "run", file_urls := some (JVal.jother "42") })
    [(("b", "x.mp4"), "v")]
    (Or.inr ⟨_, rfl, Or.inr (Or.inr ⟨"42", rfl⟩)⟩)

/-- C10: `organize_all_root_files` never propagates an error to its
caller: a failing listing call returns the URLs accumulated so far (none),
with the store untouched, and an empty bucket likewise yields the empty
list. -/
theorem organize_all_root_files_total (cf df : Nat → Bool) (ef bucket : String) (st : Store) :
    organize_all_root_files true cf df ef bucket st = (st, []) ∧
    (bucketKeys st bucket = [] →
      organize_all_root_files false cf df ef bucket st = (st, [])) := by
  constructor
  · rfl
  · intro h
    simp [organize_all_root_files, h, organize_all_go]

/-- C10 witness: failing listing, and an empty bucket. -/
theorem organize_all_root_files_total_witness :
    organize_all_root_files true (fun _ => false) (fun _ => false) "run" "b"
      [(("c", "x"), "v")] = ([(("c", "x"), "v")], []) ∧
    bucketKeys [(("c", "x"), "v")] "b" = [] ∧
    organize_all_root_files false (fun _ => false) (fun _ => false) "run" "b"
      [(("c", "x"), "v")] = ([(("c", "x"), "v")], []) := by
  have h := organize_all_root_files_total (fun _ => false) (fun _ => false) "run" "b"
    [(("c", "x"), "v")]
  exact ⟨h.1, by decide, h.2 (by decide)⟩

/-! ## `organize_files` batch lemmas (C1, C4) -/

theorem organize_files_go_cons_exc (exc cf df : Nat → Bool) (ef : String) (st : Store)
    (url : String) (rest : List String) (hexc : exc 0 = true) :
    organize_files_go exc cf df ef st (url :: rest) =
      ((organize_files_go (shiftO exc) (shiftO cf) (shiftO df) ef st rest).1,
       (url, false) :: (organize_files_go (shiftO exc) (shiftO cf) (shiftO df) ef st rest).2.1,
       (organize_files_go (shiftO exc) (shiftO cf) (shiftO df) ef st rest).2.2) := by
  simp [organize_files_go, hexc]

theorem organize_files_go_cons_prefixed (exc cf df : Nat → Bool) (ef : String) (st : Store)
    (url : String) (rest : List String) (hexc : exc 0 = false)
    (hp : hasPrefixB (ef ++ "/") (parse_minio_url_org url).2 = true) :
    organize_files_go exc cf df ef st (url :: rest) =
      ((organize_files_go (shiftO exc) (shiftO cf) (shiftO df) ef st rest).1,
       (url, false) :: (organize_files_go (shiftO exc) (shiftO cf) (shiftO df) ef st rest).2.1,
       (organize_files_go (shiftO exc) (shiftO cf) (shiftO df) ef st rest).2.2) := by
  simp [organize_files_go, hexc, hp]

theorem organize_files_go_cons_move (exc cf df : Nat → Bool) (ef : String) (st : Store)
    (url : String) (rest : List String) (hexc : exc 0 = false)
    (hp : hasPrefixB (ef ++ "/") (parse_minio_url_org url).2 = false) :
    organize_files_go exc cf df ef st (url :: rest) =
      (let m := move_file (cf 0) (df 0) st (parse_minio_url_org url).2
          (ef ++ "/" ++ basename (parse_minio_url_org url).2) (parse_minio_url_org url).1
       let r := organize_files_go (shiftO exc) (shiftO cf) (shiftO df) ef m.1 rest
       if m.2.1 then
         (r.1, (MINIO_ENDPOINT ++ "/" ++ (parse_minio_url_org url).1 ++ "/" ++
            (ef ++ "/" ++ basename (parse_minio_url_org url).2), true) :: r.2.1,
          m.2.2 ++ r.2.2)
       else (r.1, (url, false) :: r.2.1, m.2.2 ++ r.2.2)) := by
  simp [organize_files_go, hexc, hp]

theorem organize_files_go_length (exc cf df : Nat → Bool) (ef : String) (st : Store)
    (urls : List String) :
    (organize_files_go exc cf df ef st urls).2.1.length = urls.length := by
  induction urls generalizing exc cf df st with
  | nil => rfl
  | cons url rest ih =>
    by_cases hexc : exc 0 = true
    · rw [organize_files_go_cons_exc exc cf df ef st url rest hexc]
      simp [ih]
    · rw [Bool.not_eq_true] at hexc
      by_cases hp : hasPrefixB (ef ++ "/") (parse_minio_url_org url).2 = true
      · rw [organize_files_go_cons_prefixed exc cf df ef st url rest hexc hp]
        simp [ih]
      · rw [Bool.not_eq_true] at hp
        rw [organize_files_go_cons_move exc cf df ef st url rest hexc hp]
        by_cases hm : (move_file (cf 0) (df 0) st (parse_minio_url_org url).2
            (ef ++ "/" ++ basename (parse_minio_url_org url).2)
            (parse_minio_url_org url).1).2.1 = true
        · simp [hm, ih]
        · rw [Bool.not_eq_true] at hm
          simp [hm, ih]

/-- C1: `organize_files` returns one URL per input URL, in order; the
`i`-th output is the original `i`-th URL whenever its parsed key already
lies in the execution folder, or the move fails, or an exception strikes
while processing it; otherwise it is the new URL
`endpoint/bucket/executionFolder/basename(key)` of a successful move.  No
per-item failure aborts the batch. -/
theorem organize_files_batch_correct (exc cf df : Nat → Bool) (ef : String) (st : Store)
    (urls : List String) :
    (organize_files exc cf df ef st urls).length = urls.length ∧
    (∀ i url entry, urls[i]? = some url →
      ((organize_files_go exc cf df ef st urls).2.1)[i]? = some entry →
      (entry.2 = false → entry.1 = url) ∧
      (exc i = true → entry = (url, false)) ∧
      (exc i = false → hasPrefixB (ef ++ "/") (parse_minio_url_org url).2 = true →
        entry = (url, false)) ∧
      (entry.2 = true →
        exc i = false ∧ hasPrefixB (ef ++ "/") (parse_minio_url_org url).2 = false ∧
        entry.1 = MINIO_ENDPOINT ++ "/" ++ (parse_minio_url_org url).1 ++ "/" ++
          (ef ++ "/" ++ basename (parse_minio_url_org url).2))) := by
  constructor
  · simpa [organize_files] using organize_files_go_length exc cf df ef st urls
  · induction urls generalizing exc cf df st with
    | nil => intro i url entry h1; simp at h1
    | cons u rest ih =>
      intro i url entry h1 h2
      by_cases hexc : exc 0 = true
      · rw [organize_files_go_cons_exc exc cf df ef st u rest hexc] at h2
        cases i with
        | zero =>
          simp only [List.getElem?_cons_zero, Option.some.injEq] at h1 h2
          subst h1; subst h2
          refine ⟨fun _ => rfl, fun _ => rfl, fun _ _ => rfl, fun hc => ?_⟩
          simp at hc
        | succ n =>
          simp only [List.getElem?_cons_succ] at h1 h2
          exact ih (shiftO exc) (shiftO cf) (shiftO df) st n url entry h1 h2
      · rw [Bool.not_eq_true] at hexc
        by_cases hp : hasPrefixB (ef ++ "/") (parse_minio_url_org u).2 = true
        · rw [organize_files_go_cons_prefixed exc cf df ef st u rest hexc hp] at h2
          cases i with
          | zero =>
            simp only [List.getElem?_cons_zero, Option.some.injEq] at h1 h2
            subst h1; subst h2
            refine ⟨fun _ => rfl, fun hc => ?_, fun _ _ => rfl, fun hc => ?_⟩
            · simp [hexc] at hc
            · simp at hc
          | succ n =>
            simp only [List.getElem?_cons_succ] at h1 h2
            exact ih (shiftO exc) (shiftO cf) (shiftO df) st n url entry h1 h2
        · rw [Bool.not_eq_true] at hp
          rw [organize_files_go_cons_move exc cf df ef st u rest hexc hp] at h2
          by_cases hm : (move_file (cf 0) (df 0) st (parse_minio_url_org u).2
              (ef ++ "/" ++ basename (parse_minio_url_org u).2)
              (parse_minio_url_org u).1).2.1 = true
          · simp only [hm, if_true] at h2
            cases i with
            | zero =>
              simp only [List.getElem?_cons_zero, Option.some.injEq] at h1 h2
              subst h1; subst h2
              refine ⟨fun hc => ?_, fun hc => ?_, fun _ hc => ?_, fun _ => ⟨hexc, hp, rfl⟩⟩
              · simp at hc
              · simp [hexc] at hc
              · simp [hp] at hc
            | succ n =>
              simp only [List.getElem?_cons_succ] at h1 h2
              exact ih (shiftO exc) (shiftO cf) (shiftO df) _ n url entry h1 h2
          · rw [Bool.not_eq_true] at hm
            simp only [hm, Bool.false_eq_true, if_false] at h2
            cases i with
            | zero =>
              simp only [List.getElem?_cons_zero, Option.some.injEq] at h1 h2
              subst h1; subst h2
              refine ⟨fun _ => rfl, fun hc => ?_, fun _ hc => ?_, fun hc => ?_⟩
              · simp [hexc] at hc
              · simp [hp] at hc
              · simp at hc
            | succ n =>
              simp only [List.getElem?_cons_succ] at h1 h2
              exact ih (shiftO exc) (shiftO cf) (shiftO df) _ n url entry h1 h2

/-- C1 witness: one eligible URL, one URL already in place. -/
theorem organize_files_batch_correct_witness :
    (organize_files (fun _ => false) (fun _ => false) (fun _ => false) "run"
      [(("nca-toolkit", "a.mp4"), "v1")]
      ["http://minio:9000/nca-toolkit/a.mp4", "http://minio:9000/nca-toolkit/run/b.mp4"]).length
      = 2 ∧
    (["http://minio:9000/nca-toolkit/a.mp4", "http://minio:9000/nca-toolkit/run/b.mp4"][0]? =
      some "http://minio:9000/nca-toolkit/a.mp4") ∧
    ((organize_files_go (fun _ => false) (fun _ => false) (fun _ => false) "run"
      [(("nca-toolkit", "a.mp4"), "v1")]
      ["http://minio:9000/nca-toolkit/a.mp4", "http://minio:9000/nca-toolkit/run/b.mp4"]).2.1[0]? =
      some ("http://minio:9000/nca-toolkit/run/a.mp4", true)) ∧
    ("http://minio:9000/nca-toolkit/run/a.mp4" : String) =
      MINIO_ENDPOINT ++ "/" ++
        (parse_minio_url_org "http://minio:9000/nca-toolkit/a.mp4").1 ++ "/" ++
        ("run" ++ "/" ++ basename (parse_minio_url_org "http://minio:9000/nca-toolkit/a.mp4").2) := by
  refine ⟨?_, by decide, by decide, ?_⟩
  · exact (organize_files_batch_correct (fun _ => false) (fun _ => false) (fun _ => false)
      "run" [(("nca-toolkit", "a.mp4"), "v1")]
      ["http://minio:9000/nca-toolkit/a.mp4", "http://minio:9000/nca-toolkit/run/b.mp4"]).1
  · exact ((organize_files_batch_correct (fun _ => false) (fun _ => false) (fun _ => false)
      "run" [(("nca-toolkit", "a.mp4"), "v1")]
      ["http://minio:9000/nca-toolkit/a.mp4", "http://minio:9000/nca-toolkit/run/b.mp4"]).2
      0 "http://minio:9000/nca-toolkit/a.mp4" ("http://minio:9000/nca-toolkit/run/a.mp4", true)
      (by decide) (by decide)).2.2.2 rfl |>.2.2

theorem map_fst_pair_false (l : List String) :
    l.map (Prod.fst ∘ fun u => ((u, false) : String × Bool)) = l := by
  induction l with
  | nil => rfl
  | cons a l ih => simp only [List.map_cons, ih, Function.comp]

theorem organize_files_go_all_prefixed (exc cf df : Nat → Bool) (ef : String) (st : Store)
    (urls : List String)
    (h : ∀ url ∈ urls, hasPrefixB (ef ++ "/") (parse_minio_url_org url).2 = true) :
    organize_files_go exc cf df ef st urls = (st, urls.map (fun u => (u, false)), []) := by
  induction urls generalizing exc cf df with
  | nil => rfl
  | cons u rest ih =>
    have hrest : ∀ url ∈ rest, hasPrefixB (ef ++ "/") (parse_minio_url_org url).2 = true :=
      fun url hu => h url (List.mem_cons_of_mem u hu)
    by_cases hexc : exc 0 = true
    · rw [organize_files_go_cons_exc exc cf df ef st u rest hexc,
        ih (shiftO exc) (shiftO cf) (shiftO df) hrest]
      rfl
    · rw [Bool.not_eq_true] at hexc
      rw [organize_files_go_cons_prefixed exc cf df ef st u rest hexc (h u (List.mem_cons_self u rest)),
        ih (shiftO exc) (shiftO cf) (shiftO df) hrest]
      rfl

/-- C4: on a list of URLs whose keys all already lie inside the execution
folder, `organize_files` returns the input list unchanged with the store
untouched and no storage call issued, and a second call on its own output
does the same. -/
theorem organize_files_idempotent (exc cf df exc2 cf2 df2 : Nat → Bool) (ef : String)
    (st : Store) (urls : List String)
    (h : ∀ url ∈ urls, hasPrefixB (ef ++ "/") (parse_minio_url_org url).2 = true) :
    organize_files_go exc cf df ef st urls = (st, urls.map (fun u => (u, false)), []) ∧
    organize_files exc cf df ef st urls = urls ∧
    organize_files_go exc2 cf2 df2 ef (organize_files_go exc cf df ef st urls).1
      (organize_files exc cf df ef st urls) = (st, urls.map (fun u => (u, false)), []) ∧
    organize_files exc2 cf2 df2 ef (organize_files_go exc cf df ef st urls).1
      (organize_files exc cf df ef st urls) = urls := by
  have h1 := organize_files_go_all_prefixed exc cf df ef st urls h
  have hofl : organize_files exc cf df ef st urls = urls := by
    rw [organize_files, h1]
    show List.map Prod.fst (List.map (fun u => (u, false)) urls) = urls
    rw [List.map_map]
    exact map_fst_pair_false urls
  have hst : (organize_files_go exc cf df ef st urls).1 = st := by rw [h1]
  have h2 := organize_files_go_all_prefixed exc2 cf2 df2 ef st urls h
  refine ⟨h1, hofl, ?_, ?_⟩
  · rw [hofl, hst]; exact h2
  · rw [hofl, hst, organize_files, h2]
    show List.map Prod.fst (List.map (fun u => (u, false)) urls) = urls
    rw [List.map_map]
    exact map_fst_pair_false urls

/-- C4 witness: a URL already inside the folder. -/
theorem organize_files_idempotent_witness :
    (∀ url ∈ ["http://minio:9000/nca-toolkit/run/b.mp4"],
      hasPrefixB ("run" ++ "/") (parse_minio_url_org url).2 = true) ∧
    organize_files (fun _ => false) (fun _ => false) (fun _ => false) "run"
      [(("nca-toolkit", "run/b.mp4"), "v")] ["http://minio:9000/nca-toolkit/run/b.mp4"] =
      ["http://minio:9000/nca-toolkit/run/b.mp4"] ∧
    organize_files_go (fun _ => false) (fun _ => false) (fun _ => false) "run"
      [(("nca-toolkit", "run/b.mp4"), "v")] ["http://minio:9000/nca-toolkit/run/b.mp4"] =
      ([(("nca-toolkit", "run/b.mp4"), "v")],
        [("http://minio:9000/nca-toolkit/run/b.mp4", false)], []) := by
  have hpre : ∀ url ∈ ["http://minio:9000/nca-toolkit/run/b.mp4"],
      hasPrefixB ("run" ++ "/") (parse_minio_url_org url).2 = true := by decide
  have h := organize_files_idempotent (fun _ => false) (fun _ => false) (fun _ => false)
    (fun _ => false) (fun _ => false) (fun _ => false) "run"
    [(("nca-toolkit", "run/b.mp4"), "v")] ["http://minio:9000/nca-toolkit/run/b.mp4"] hpre
  exact ⟨hpre, h.2.1, h.1⟩

/-! ## Helper lemmas for root organization (C5) -/

theorem contains_iff_mem_str (l : List String) (s : String) : l.contains s = true ↔ s ∈ l :=
  List.contains_iff_exists_mem_beq.trans (by simp)

theorem contains_cons_str (l : List String) (a x : String) :
    (a :: l).contains x = ((x == a) || l.contains x) := by
  cases h : x == a <;> simp [List.contains, List.elem, h]

theorem no_slash_of_not_contains {k : String} (h : k.data.contains '/' = false) :
    ∀ c ∈ k.data, c ≠ '/' := by
  intro c hc heq
  subst heq
  rw [← contains_iff_mem_char] at hc
  rw [h] at hc
  cases hc

theorem basename_no_slash {k : String} (h : k.data.contains '/' = false) : basename k = k := by
  unfold basename
  have ht : List.takeWhile (fun c => decide (c ≠ '/')) k.data.reverse = k.data.reverse := by
    apply takeWhile_eq_self_of_all
    intro x hx
    rw [List.mem_reverse] at hx
    simp [no_slash_of_not_contains h x hx]
  rw [ht, List.reverse_reverse]

theorem isPrefixOf_append_self : ∀ (l₁ l₂ : List Char), l₁.isPrefixOf (l₁ ++ l₂) = true
  | [], _ => by simp [List.isPrefixOf]
  | a :: l₁, l₂ => by simp [List.isPrefixOf, isPrefixOf_append_self l₁ l₂]

theorem exists_append_of_isPrefixOf :
    ∀ (l₁ l₂ : List Char), l₁.isPrefixOf l₂ = true → ∃ t, l₂ = l₁ ++ t
  | [], l₂, _ => ⟨l₂, rfl⟩
  | a :: l₁, [], h => by cases h
  | a :: l₁, b :: l₂, h => by
    simp only [List.isPrefixOf, Bool.and_eq_true, beq_iff_eq] at h
    obtain ⟨t, ht⟩ := exists_append_of_isPrefixOf l₁ l₂ h.2
    exact ⟨t, by rw [h.1, ht]; rfl⟩

theorem hasPrefixB_append (p s : String) : hasPrefixB p (p ++ s) = true := by
  unfold hasPrefixB
  rw [String.data_append]
  exact isPrefixOf_append_self p.data s.data

theorem contains_slash_append_slash (ef : String) : (ef ++ "/").data.contains '/' = true := by
  rw [contains_iff_mem_char, String.data_append]
  exact List.mem_append.mpr (Or.inr (by simp))

theorem contains_slash_of_hasPrefixB {ef x : String} (h : hasPrefixB (ef ++ "/") x = true) :
    x.data.contains '/' = true := by
  unfold hasPrefixB at h
  obtain ⟨t, ht⟩ := exists_append_of_isPrefixOf _ _ h
  rw [contains_iff_mem_char, ht]
  apply List.mem_append.mpr
  left
  rw [← contains_iff_mem_char]
  exact contains_slash_append_slash ef

theorem ne_of_contains_ne {x d : String} (hx : x.data.contains '/' = false)
    (hd : d.data.contains '/' = true) : x ≠ d := by
  intro he
  rw [he, hd] at hx
  cases hx

theorem string_append_left_cancel {a x y : String} (h : a ++ x = a ++ y) : x = y := by
  have hd := congrArg String.data h
  rw [String.data_append, String.data_append] at hd
  have hxy := List.append_cancel_left hd
  cases x with
  | mk dx =>
    cases y with
    | mk dy =>
      simp only at hxy
      rw [hxy]

theorem bucketKeys_delObj (st : Store) (b k : String) :
    bucketKeys (delObj st b k) b = (bucketKeys st b).filter (fun x => !(x == k)) := by
  induction st with
  | nil => rfl
  | cons e rest ih =>
    by_cases hd : e.1.1 = b ∧ e.1.2 = k
    · have hk : (e.1.2 == k) = true := by simp [hd.2]
      simp [delObj, hd, bucketKeys, hd.1, List.filter_cons, hk, ih]
    · by_cases hb : e.1.1 = b
      · have hkk : ¬ e.1.2 = k := fun hkk => hd ⟨hb, hkk⟩
        have hk : (e.1.2 == k) = false := by simp [hkk]
        simp [delObj, hd, bucketKeys, hb, hkk, List.filter_cons, hk, ih]
      · simp [delObj, hd, bucketKeys, hb, ih]

theorem bucketKeys_putObj (st : Store) (b k v : String) :
    bucketKeys (putObj st b k v) b = k :: (bucketKeys st b).filter (fun x => !(x == k)) := by
  unfold putObj
  simp [bucketKeys, bucketKeys_delObj]

theorem move_file_lookup_other (cf df : Bool) (st : Store) (src dest bucket x : String)
    (hx1 : x ≠ src) (hx2 : x ≠ dest) :
    lookupObj (move_file cf df st src dest bucket).1 bucket x = lookupObj st bucket x := by
  unfold move_file
  cases hl : lookupObj st bucket src with
  | none => rfl
  | some v =>
    by_cases hcf : cf = true
    · simp [hcf]
    · rw [Bool.not_eq_true] at hcf
      by_cases hdf : df = true
      · simp only [hcf, hdf, Bool.false_eq_true, if_false, if_true]
        exact lookupObj_putObj_ne st bucket dest v bucket x (fun hc => hx2 hc.2)
      · rw [Bool.not_eq_true] at hdf
        simp only [hcf, hdf, Bool.false_eq_true, if_false]
        rw [lookupObj_delObj _ bucket src bucket x (fun hc => hx1 hc.2)]
        exact lookupObj_putObj_ne st bucket dest v bucket x (fun hc => hx2 hc.2)

theorem move_file_success_store (st : Store) (src dest bucket v : String)
    (hv : lookupObj st bucket src = some v) :
    move_file false false st src dest bucket =
      (delObj (putObj st bucket dest v) bucket src, true,
        [StorageOp.copy bucket src dest, StorageOp.delete bucket src]) := by
  simp [move_file, hv]

theorem rootEligible_of_branches {ef k : String} (hc : k.data.contains '/' = false)
    (hf : (k == ef || k == ef ++ "/") = false) : rootEligible ef k = true := by
  rw [Bool.or_eq_false_iff] at hf
  unfold rootEligible
  rw [hc, hf.1, hf.2]
  rfl

theorem not_rootEligible_of_slash {ef k : String} (hc : k.data.contains '/' = true) :
    rootEligible ef k = false := by
  unfold rootEligible
  rw [hc]
  rfl

theorem not_rootEligible_of_folder {ef k : String}
    (hf : (k == ef || k == ef ++ "/") = true) : rootEligible ef k = false := by
  unfold rootEligible
  rcases Bool.or_eq_true_iff.mp hf with hf | hf
  · rw [hf]
    simp only [Bool.not_true, Bool.and_false, Bool.false_and]
  · rw [hf]
    simp only [Bool.not_true, Bool.and_false]

theorem organize_all_go_cons_slash (cf df : Nat → Bool) (ef bucket : String) (st : Store)
    (k : String) (rest : List String) (hc : k.data.contains '/' = true) :
    organize_all_go cf df ef bucket st (k :: rest) = organize_all_go cf df ef bucket st rest := by
  conv_lhs => rw [organize_all_go]
  rw [if_pos hc]

theorem organize_all_go_cons_folder (cf df : Nat → Bool) (ef bucket : String) (st : Store)
    (k : String) (rest : List String) (hc : k.data.contains '/' = false)
    (hf : (k == ef || k == ef ++ "/") = true) :
    organize_all_go cf df ef bucket st (k :: rest) = organize_all_go cf df ef bucket st rest := by
  conv_lhs => rw [organize_all_go]
  rw [if_neg (by rw [hc]; exact Bool.false_ne_true), if_pos hf]

theorem organize_all_go_cons_move (cf df : Nat → Bool) (ef bucket : String) (st : Store)
    (k : String) (rest : List String) (hc : k.data.contains '/' = false)
    (hf : (k == ef || k == ef ++ "/") = false) :
    organize_all_go cf df ef bucket st (k :: rest) =
      (let m := move_file (cf 0) (df 0) st k (ef ++ "/" ++ basename k) bucket
       let r := organize_all_go (shiftO cf) (shiftO df) ef bucket m.1 rest
       if m.2.1 then
         (r.1, (MINIO_ENDPOINT ++ "/" ++ bucket ++ "/" ++ (ef ++ "/" ++ basename k)) :: r.2)
       else r) := by
  conv_lhs => rw [organize_all_go]
  rw [if_neg (by rw [hc]; exact Bool.false_ne_true),
    if_neg (by rw [hf]; exact Bool.false_ne_true)]

theorem succMoved_cons_skip (cf df : Nat → Bool) (ef k : String) (rest : List String)
    (h : rootEligible ef k = false) :
    succMoved cf df ef (k :: rest) = succMoved cf df ef rest := by
  conv_lhs => rw [succMoved]
  rw [if_neg (by rw [h]; exact Bool.false_ne_true)]

theorem succMoved_cons_elig (cf df : Nat → Bool) (ef k : String) (rest : List String)
    (h : rootEligible ef k = true) :
    succMoved cf df ef (k :: rest) =
      (if cf 0 = false ∧ df 0 = false then
        k :: succMoved (shiftO cf) (shiftO df) ef rest
       else succMoved (shiftO cf) (shiftO df) ef rest) := by
  conv_lhs => rw [succMoved]
  rw [if_pos h]

theorem succMoved_all_false (ef : String) :
    ∀ (ks : List String) (cf df : Nat → Bool), (∀ i, cf i = false) → (∀ i, df i = false) →
      succMoved cf df ef ks = ks.filter (fun k => rootEligible ef k)
  | [], _, _, _, _ => rfl
  | k :: rest, cf, df, hcf, hdf => by
    have ih := succMoved_all_false ef rest (shiftO cf) (shiftO df)
      (fun i => hcf (i + 1)) (fun i => hdf (i + 1))
    by_cases he : rootEligible ef k = true
    · rw [succMoved_cons_elig cf df ef k rest he, if_pos ⟨hcf 0, hdf 0⟩, ih,
        List.filter_cons_of_pos he]
    · rw [Bool.not_eq_true] at he
      have ih2 := succMoved_all_false ef rest cf df hcf hdf
      rw [succMoved_cons_skip cf df ef k rest he, ih2,
        List.filter_cons_of_neg (by simp [he])]

theorem organize_all_go_urls (ef bucket : String) :
    ∀ (ks : List String) (cf df : Nat → Bool) (st : Store),
      ks.Nodup →
      (∀ k ∈ ks, rootEligible ef k = true → (lookupObj st bucket k).isSome = true) →
      (organize_all_go cf df ef bucket st ks).2 =
        (succMoved cf df ef ks).map
          (fun k => MINIO_ENDPOINT ++ "/" ++ bucket ++ "/" ++ (ef ++ "/" ++ basename k))
  | [], _, _, _, _, _ => rfl
  | k :: rest, cf, df, st, hnd, hpres => by
    by_cases hc : k.data.contains '/' = true
    · rw [organize_all_go_cons_slash cf df ef bucket st k rest hc,
        succMoved_cons_skip cf df ef k rest (not_rootEligible_of_slash hc)]
      exact organize_all_go_urls ef bucket rest cf df st hnd.of_cons
        (fun x hx hex => hpres x (List.mem_cons_of_mem k hx) hex)
    · rw [Bool.not_eq_true] at hc
      by_cases hf : (k == ef || k == ef ++ "/") = true
      · rw [organize_all_go_cons_folder cf df ef bucket st k rest hc hf,
          succMoved_cons_skip cf df ef k rest (not_rootEligible_of_folder hf)]
        exact organize_all_go_urls ef bucket rest cf df st hnd.of_cons
          (fun x hx hex => hpres x (List.mem_cons_of_mem k hx) hex)
      · rw [Bool.not_eq_true] at hf
        have helig : rootEligible ef k = true := rootEligible_of_branches hc hf
        have hlk : (lookupObj st bucket k).isSome = true :=
          hpres k (List.mem_cons_self k rest) helig
        obtain ⟨v, hv⟩ := Option.isSome_iff_exists.mp hlk
        have hknotin : k ∉ rest := (List.nodup_cons.mp hnd).1
        have hpres2 : ∀ x ∈ rest, rootEligible ef x = true →
            (lookupObj (move_file (cf 0) (df 0) st k (ef ++ "/" ++ basename k) bucket).1
              bucket x).isSome = true := by
          intro x hx hex
          have hx1 : x ≠ k := fun he => hknotin (he ▸ hx)
          have hxs : x.data.contains '/' = false := by
            rcases hb : x.data.contains '/' with _ | _
            · rfl
            · rw [not_rootEligible_of_slash hb] at hex; cases hex
          have hx2 : x ≠ ef ++ "/" ++ basename k :=
            ne_of_contains_ne hxs
              (contains_slash_of_hasPrefixB (hasPrefixB_append (ef ++ "/") (basename k)))
          rw [move_file_lookup_other (cf 0) (df 0) st k (ef ++ "/" ++ basename k) bucket x
            hx1 hx2]
          exact hpres x (List.mem_cons_of_mem k hx) hex
        have ih := organize_all_go_urls ef bucket rest (shiftO cf) (shiftO df)
          (move_file (cf 0) (df 0) st k (ef ++ "/" ++ basename k) bucket).1
          hnd.of_cons hpres2
        rw [organize_all_go_cons_move cf df ef bucket st k rest hc hf,
          succMoved_cons_elig cf df ef k rest helig]
        by_cases hcf : cf 0 = true
        · have hm : move_file (cf 0) (df 0) st k (ef ++ "/" ++ basename k) bucket =
              (st, false, [StorageOp.copy bucket k (ef ++ "/" ++ basename k)]) := by
            rw [hcf]; simp [move_file, hv]
          have hsm : (if cf 0 = false ∧ df 0 = false then
              k :: succMoved (shiftO cf) (shiftO df) ef rest
            else succMoved (shiftO cf) (shiftO df) ef rest) =
              succMoved (shiftO cf) (shiftO df) ef rest := by
            apply if_neg
            intro hand
            rw [hcf] at hand
            simp at hand
          rw [hsm]
          simp only [hm, Bool.false_eq_true, if_false]
          rw [hm] at ih
          exact ih
        · rw [Bool.not_eq_true] at hcf
          by_cases hdf : df 0 = true
          · have hm : move_file (cf 0) (df 0) st k (ef ++ "/" ++ basename k) bucket =
                (putObj st bucket (ef ++ "/" ++ basename k) v, false,
                  [StorageOp.copy bucket k (ef ++ "/" ++ basename k),
                   StorageOp.delete bucket k]) := by
              rw [hcf, hdf]; simp [move_file, hv]
            have hsm : (if cf 0 = false ∧ df 0 = false then
                k :: succMoved (shiftO cf) (shiftO df) ef rest
              else succMoved (shiftO cf) (shiftO df) ef rest) =
                succMoved (shiftO cf) (shiftO df) ef rest := by
              apply if_neg
              intro hand
              rw [hdf] at hand
              simp at hand
            rw [hsm]
            simp only [hm, Bool.false_eq_true, if_false]
            rw [hm] at ih
            exact ih
          · rw [Bool.not_eq_true] at hdf
            have hm : move_file (cf 0) (df 0) st k (ef ++ "/" ++ basename k) bucket =
                (delObj (putObj st bucket (ef ++ "/" ++ basename k) v) bucket k, true,
                  [StorageOp.copy bucket k (ef ++ "/" ++ basename k),
                   StorageOp.delete bucket k]) := by
              rw [hcf, hdf]
              exact move_file_success_store st k (ef ++ "/" ++ basename k) bucket v hv
            have hsm : (if cf 0 = false ∧ df 0 = false then
                k :: succMoved (shiftO cf) (shiftO df) ef rest
              else succMoved (shiftO cf) (shiftO df) ef rest) =
                k :: succMoved (shiftO cf) (shiftO df) ef rest := if_pos ⟨hcf, hdf⟩
            rw [hsm]
            simp only [hm, if_true, List.map_cons]
            rw [hm] at ih
            rw [ih]

theorem no_slash_of_rootEligible {ef k : String} (h : rootEligible ef k = true) :
    k.data.contains '/' = false := by
  rcases hb : k.data.contains '/' with _ | _
  · rfl
  · rw [not_rootEligible_of_slash hb] at h
    exact absurd h (by simp)

theorem organize_all_go_perm (ef bucket : String) :
    ∀ (ks : List String) (cf df : Nat → Bool) (st : Store),
      (∀ i, cf i = false) → (∀ i, df i = false) →
      ks.Nodup →
      (∀ k ∈ ks, rootEligible ef k = true → (lookupObj st bucket k).isSome = true) →
      (∀ k ∈ ks, rootEligible ef k = true → (ef ++ "/" ++ basename k) ∉ bucketKeys st bucket) →
      (bucketKeys (organize_all_go cf df ef bucket st ks).1 bucket).Perm
        ((ks.filter (fun k => rootEligible ef k)).map (fun k => ef ++ "/" ++ basename k) ++
          (bucketKeys st bucket).filter
            (fun x => !((ks.filter (fun k => rootEligible ef k)).contains x)))
  | [], cf, df, st, _, _, _, _, _ => by
    simp only [organize_all_go, List.filter_nil, List.map_nil, List.nil_append]
    have hself : (bucketKeys st bucket).filter (fun x => !(List.contains [] x)) =
        bucketKeys st bucket :=
      List.filter_eq_self.mpr (fun a _ => rfl)
    rw [hself]
  | k :: rest, cf, df, st, hcf, hdf, hnd, hpres, hfresh => by
    have hshcf : ∀ i, shiftO cf i = false := fun i => hcf (i + 1)
    have hshdf : ∀ i, shiftO df i = false := fun i => hdf (i + 1)
    by_cases hc : k.data.contains '/' = true
    · have he : rootEligible ef k = false := not_rootEligible_of_slash hc
      rw [organize_all_go_cons_slash cf df ef bucket st k rest hc,
        List.filter_cons_of_neg (by simp [he])]
      exact organize_all_go_perm ef bucket rest cf df st hcf hdf hnd.of_cons
        (fun x hx hex => hpres x (List.mem_cons_of_mem k hx) hex)
        (fun x hx hex => hfresh x (List.mem_cons_of_mem k hx) hex)
    · rw [Bool.not_eq_true] at hc
      by_cases hf : (k == ef || k == ef ++ "/") = true
      · have he : rootEligible ef k = false := not_rootEligible_of_folder hf
        rw [organize_all_go_cons_folder cf df ef bucket st k rest hc hf,
          List.filter_cons_of_neg (by simp [he])]
        exact organize_all_go_perm ef bucket rest cf df st hcf hdf hnd.of_cons
          (fun x hx hex => hpres x (List.mem_cons_of_mem k hx) hex)
          (fun x hx hex => hfresh x (List.mem_cons_of_mem k hx) hex)
      · rw [Bool.not_eq_true] at hf
        have helig : rootEligible ef k = true := rootEligible_of_branches hc hf
        have hlk : (lookupObj st bucket k).isSome = true :=
          hpres k (List.mem_cons_self k rest) helig
        obtain ⟨v, hv⟩ := Option.isSome_iff_exists.mp hlk
        have hknotin : k ∉ rest := (List.nodup_cons.mp hnd).1
        have hdslash : (ef ++ "/" ++ basename k).data.contains '/' = true :=
          contains_slash_of_hasPrefixB (hasPrefixB_append (ef ++ "/") (basename k))
        have hkd : k ≠ ef ++ "/" ++ basename k := ne_of_contains_ne hc hdslash
        have hm : move_file (cf 0) (df 0) st k (ef ++ "/" ++ basename k) bucket =
            (delObj (putObj st bucket (ef ++ "/" ++ basename k) v) bucket k, true,
              [StorageOp.copy bucket k (ef ++ "/" ++ basename k),
               StorageOp.delete bucket k]) := by
          rw [hcf 0, hdf 0]
          exact move_file_success_store st k (ef ++ "/" ++ basename k) bucket v hv
        have hdestmem : (ef ++ "/" ++ basename k) ∉ bucketKeys st bucket :=
          hfresh k (List.mem_cons_self k rest) helig
        have hkeys2 : bucketKeys
            (delObj (putObj st bucket (ef ++ "/" ++ basename k) v) bucket k) bucket =
            (ef ++ "/" ++ basename k) :: (bucketKeys st bucket).filter (fun x => !(x == k)) := by
          rw [bucketKeys_delObj, bucketKeys_putObj,
            List.filter_cons_of_pos (by simp [Ne.symm hkd])]
          congr 1
          rw [List.filter_filter]
          apply List.filter_congr
          intro a ha
          have had : (a == ef ++ "/" ++ basename k) = false := by
            have : a ≠ ef ++ "/" ++ basename k := fun he => hdestmem (he ▸ ha)
            simp [this]
          rw [had]
          simp
        have hpres2 : ∀ x ∈ rest, rootEligible ef x = true →
            (lookupObj (delObj (putObj st bucket (ef ++ "/" ++ basename k) v) bucket k)
              bucket x).isSome = true := by
          intro x hx hex
          have hx1 : x ≠ k := fun he => hknotin (he ▸ hx)
          have hx2 : x ≠ ef ++ "/" ++ basename k :=
            ne_of_contains_ne (no_slash_of_rootEligible hex) hdslash
          rw [lookupObj_delObj _ bucket k bucket x (fun hcon => hx1 hcon.2),
            lookupObj_putObj_ne st bucket (ef ++ "/" ++ basename k) v bucket x
              (fun hcon => hx2 hcon.2)]
          exact hpres x (List.mem_cons_of_mem k hx) hex
        have hfresh2 : ∀ x ∈ rest, rootEligible ef x = true →
            (ef ++ "/" ++ basename x) ∉ bucketKeys
              (delObj (putObj st bucket (ef ++ "/" ++ basename k) v) bucket k) bucket := by
          intro x hx hex hmem
          rw [hkeys2] at hmem
          rcases List.mem_cons.mp hmem with hmem | hmem
          · have hbx : basename x = x := basename_no_slash (no_slash_of_rootEligible hex)
            have hbk : basename k = k := basename_no_slash hc
            rw [hbx, hbk] at hmem
            have hxk : x = k := string_append_left_cancel hmem
            exact hknotin (hxk ▸ hx)
          · exact hfresh x (List.mem_cons_of_mem k hx) hex (List.mem_filter.mp hmem).1
        have ih := organize_all_go_perm ef bucket rest (shiftO cf) (shiftO df)
          (delObj (putObj st bucket (ef ++ "/" ++ basename k) v) bucket k)
          hshcf hshdf hnd.of_cons hpres2 hfresh2
        rw [organize_all_go_cons_move cf df ef bucket st k rest hc hf]
        simp only [hm, if_true]
        rw [List.filter_cons_of_pos (by simp [helig])]
        simp only [List.map_cons]
        have hdne : (rest.filter (fun j => rootEligible ef j)).contains
            (ef ++ "/" ++ basename k) = false := by
          rcases hcon : (rest.filter (fun j => rootEligible ef j)).contains
              (ef ++ "/" ++ basename k) with _ | _
          · rfl
          · exfalso
            have hmem := (contains_iff_mem_str _ _).mp hcon
            have hex := (List.mem_filter.mp hmem).2
            rw [no_slash_of_rootEligible hex] at hdslash
            cases hdslash
        have hstep : ((bucketKeys
            (delObj (putObj st bucket (ef ++ "/" ++ basename k) v) bucket k) bucket).filter
              (fun x => !((rest.filter (fun j => rootEligible ef j)).contains x))) =
            (ef ++ "/" ++ basename k) ::
              (bucketKeys st bucket).filter
                (fun x => !((k :: rest.filter (fun j => rootEligible ef j)).contains x)) := by
          rw [hkeys2, List.filter_cons_of_pos (by rw [hdne]; rfl)]
          congr 1
          rw [List.filter_filter]
          apply List.filter_congr
          intro a ha
          rw [contains_cons_str, Bool.not_or]
          exact Bool.and_comm _ _
        rw [hstep] at ih
        exact ih.trans List.perm_middle

/-- C5: `organize_all_root_files` moves exactly the listed keys that
contain no `/` and are not the execution folder marker, each to
`executionFolder/basename(key)`, and returns only the new URLs of the
moves that succeeded — a failed move contributes no entry.  With no
storage fault, moving the root objects of a well-formed bucket leaves no
`/`-free key at the root other than the folder marker, and exactly the
moved objects sit under the folder prefix. -/
theorem organize_all_root_files_correct (cf df : Nat → Bool) (ef bucket : String) (st : Store)
    (hnd : (bucketKeys st bucket).Nodup)
    (hpre : ∀ x ∈ bucketKeys st bucket, hasPrefixB (ef ++ "/") x = false) :
    (organize_all_root_files false cf df ef bucket st).2 =
      (succMoved cf df ef (bucketKeys st bucket)).map
        (fun k => MINIO_ENDPOINT ++ "/" ++ bucket ++ "/" ++ (ef ++ "/" ++ basename k)) ∧
    ((∀ i, cf i = false) → (∀ i, df i = false) →
      (organize_all_root_files false cf df ef bucket st).2 =
        ((bucketKeys st bucket).filter (fun k => rootEligible ef k)).map
          (fun k => MINIO_ENDPOINT ++ "/" ++ bucket ++ "/" ++ (ef ++ "/" ++ basename k)) ∧
      (bucketKeys (organize_all_root_files false cf df ef bucket st).1 bucket).filter
        (fun x => !(x.data.contains '/') && !(x == ef)) = [] ∧
      ((bucketKeys (organize_all_root_files false cf df ef bucket st).1 bucket).filter
        (fun x => hasPrefixB (ef ++ "/") x)).length =
        ((bucketKeys st bucket).filter (fun k => rootEligible ef k)).length) := by
  have hpres : ∀ k ∈ bucketKeys st bucket, rootEligible ef k = true →
      (lookupObj st bucket k).isSome = true :=
    fun k hk _ => (mem_bucketKeys_iff st bucket k).mp hk
  have hfresh : ∀ k ∈ bucketKeys st bucket, rootEligible ef k = true →
      (ef ++ "/" ++ basename k) ∉ bucketKeys st bucket := by
    intro k _ _ hmem
    have h1 := hpre (ef ++ "/" ++ basename k) hmem
    have h2 := hasPrefixB_append (ef ++ "/") (basename k)
    rw [h1] at h2
    cases h2
  have hrfl : organize_all_root_files false cf df ef bucket st =
      organize_all_go cf df ef bucket st (bucketKeys st bucket) := rfl
  have hurls := organize_all_go_urls ef bucket (bucketKeys st bucket) cf df st hnd hpres
  constructor
  · rw [hrfl]
    exact hurls
  · intro hcf hdf
    have hperm := organize_all_go_perm ef bucket (bucketKeys st bucket) cf df st hcf hdf
      hnd hpres hfresh
    refine ⟨?_, ?_, ?_⟩
    · rw [hrfl, hurls, succMoved_all_false ef (bucketKeys st bucket) cf df hcf hdf]
    · have hfilt := hperm.filter (fun x => !(x.data.contains '/') && !(x == ef))
      rw [List.filter_append] at hfilt
      have hnil1 : (((bucketKeys st bucket).filter (fun k => rootEligible ef k)).map
          (fun k => ef ++ "/" ++ basename k)).filter
            (fun x => !(x.data.contains '/') && !(x == ef)) = [] := by
        apply List.filter_eq_nil_iff.mpr
        intro a ha
        obtain ⟨x, _, rfl⟩ := List.mem_map.mp ha
        have hsl : (ef ++ "/" ++ basename x).data.contains '/' = true :=
          contains_slash_of_hasPrefixB (hasPrefixB_append (ef ++ "/") (basename x))
        simp [hsl]
      have hnil2 : (((bucketKeys st bucket)).filter
          (fun x => !(((bucketKeys st bucket).filter
            (fun k => rootEligible ef k)).contains x))).filter
            (fun x => !(x.data.contains '/') && !(x == ef)) = [] := by
        apply List.filter_eq_nil_iff.mpr
        intro a ha hp
        have hmem := List.mem_filter.mp ha
        have hq := hmem.2
        rw [Bool.and_eq_true] at hp
        have hcont : a.data.contains '/' = false := by
          rcases hb : a.data.contains '/' with _ | _
          · rfl
          · rw [hb] at hp; exact absurd hp.1 (by simp)
        have hef : (a == ef) = false := by
          rcases hb : (a == ef) with _ | _
          · rfl
          · rw [hb] at hp; exact absurd hp.2 (by simp)
        have hef2 : (a == ef ++ "/") = false := by
          have : a ≠ ef ++ "/" :=
            ne_of_contains_ne hcont (contains_slash_append_slash ef)
          simp [this]
        have helig : rootEligible ef a = true :=
          rootEligible_of_branches hcont (by rw [hef, hef2]; rfl)
        have hmemD : a ∈ (bucketKeys st bucket).filter (fun k => rootEligible ef k) :=
          List.mem_filter.mpr ⟨hmem.1, helig⟩
        rw [(contains_iff_mem_str _ _).mpr hmemD] at hq
        exact absurd hq (by simp)
      rw [hnil1, hnil2, List.append_nil] at hfilt
      rw [hrfl]
      exact List.perm_nil.mp hfilt
    · have hfilt := hperm.filter (fun x => hasPrefixB (ef ++ "/") x)
      rw [List.filter_append] at hfilt
      have hself : (((bucketKeys st bucket).filter (fun k => rootEligible ef k)).map
          (fun k => ef ++ "/" ++ basename k)).filter
            (fun x => hasPrefixB (ef ++ "/") x) =
          ((bucketKeys st bucket).filter (fun k => rootEligible ef k)).map
            (fun k => ef ++ "/" ++ basename k) := by
        apply List.filter_eq_self.mpr
        intro a ha
        obtain ⟨x, _, rfl⟩ := List.mem_map.mp ha
        exact hasPrefixB_append (ef ++ "/") (basename x)
      have hnil : (((bucketKeys st bucket)).filter
          (fun x => !(((bucketKeys st bucket).filter
            (fun k => rootEligible ef k)).contains x))).filter
            (fun x => hasPrefixB (ef ++ "/") x) = [] := by
        apply List.filter_eq_nil_iff.mpr
        intro a ha hp
        have hmem := List.mem_filter.mp ha
        rw [hpre a hmem.1] at hp
        cases hp
      rw [hself, hnil, List.append_nil] at hfilt
      rw [hrfl]
      rw [hfilt.length_eq, List.length_map]

/-- C5 witness: two root objects, a folder marker and one nested object. -/
theorem organize_all_root_files_correct_witness :
    (organize_all_root_files false (fun _ => false) (fun _ => false) "run" "b"
      [(("b", "x.mp4"), "1"), (("b", "run"), "m"), (("b", "c/d"), "2"), (("b", "y.mp4"), "3")]).2 =
      (succMoved (fun _ => false) (fun _ => false) "run"
        (bucketKeys [(("b", "x.mp4"), "1"), (("b", "run"), "m"), (("b", "c/d"), "2"),
          (("b", "y.mp4"), "3")] "b")).map
        (fun k => MINIO_ENDPOINT ++ "/" ++ "b" ++ "/" ++ ("run" ++ "/" ++ basename k)) ∧
    (organize_all_root_files false (fun _ => false) (fun _ => false) "run" "b"
      [(("b", "x.mp4"), "1"), (("b", "run"), "m"), (("b", "c/d"), "2"), (("b", "y.mp4"), "3")]).2 =
      ((bucketKeys [(("b", "x.mp4"), "1"), (("b", "run"), "m"), (("b", "c/d"), "2"),
          (("b", "y.mp4"), "3")] "b").filter (fun k => rootEligible "run" k)).map
        (fun k => MINIO_ENDPOINT ++ "/" ++ "b" ++ "/" ++ ("run" ++ "/" ++ basename k)) ∧
    (bucketKeys (organize_all_root_files false (fun _ => false) (fun _ => false) "run" "b"
      [(("b", "x.mp4"), "1"), (("b", "run"), "m"), (("b", "c/d"), "2"),
        (("b", "y.mp4"), "3")]).1 "b").filter
      (fun x => !(x.data.contains '/') && !(x == "run")) = [] ∧
    ((bucketKeys (organize_all_root_files false (fun _ => false) (fun _ => false) "run" "b"
      [(("b", "x.mp4"), "1"), (("b", "run"), "m"), (("b", "c/d"), "2"),
        (("b", "y.mp4"), "3")]).1 "b").filter
      (fun x => hasPrefixB ("run" ++ "/") x)).length =
      ((bucketKeys [(("b", "x.mp4"), "1"), (("b", "run"), "m"), (("b", "c/d"), "2"),
        (("b", "y.mp4"), "3")] "b").filter (fun k => rootEligible "run" k)).length := by
  have h := organize_all_root_files_correct (fun _ => false) (fun _ => false) "run" "b"
    [(("b", "x.mp4"), "1"), (("b", "run"), "m"), (("b", "c/d"), "2"), (("b", "y.mp4"), "3")]
    (by decide) (by decide)
  have h2 := h.2 (fun _ => rfl) (fun _ => rfl)
  exact ⟨h.1, h2.1, h2.2.1, h2.2.2⟩
